import Mathlib

set_option autoImplicit false

/-!
Verification development for the Auth.js / next-auth repository.

The embedding covers:
* `packages/core/src/jwt.ts` — `encode`, `decode`, `getToken`,
  `getDerivedEncryptionKey` (JWE via the jose library is modelled
  symbolically: a token records its protected header, the key it was
  encrypted under, and its payload; decryption succeeds exactly when the
  same derived key is supplied and the jose JWT claim checks pass);
* the MikroORM adapter (`updateSession`, `useVerificationToken`) over an
  explicit list-of-rows store;
* the SvelteKit client helpers (`signIn`, `signOut`) as the trace of
  fetch calls they issue;
* `packages/core/scripts/generate-providers.js`.

JavaScript semantics that matter to the claims is modelled explicitly:
string truthiness (`""` is falsy), `String.prototype.split`,
indexing past the end of an array giving `undefined`,
`decodeURIComponent` (including its coercion of `undefined` to the string
"undefined" and its `URIError` on malformed percent-encodings), and the
`| 0` (ToInt32) truncation in `now()`.
-/

namespace NextAuth

/-! ## JSON-like values and payload objects -/

/-- A JSON-like claim value as stored in a JWT payload. -/
inductive JValue where
  | str (s : String)
  | num (n : Int)
  | bool (b : Bool)
  | null
  deriving DecidableEq, Repr

/-- A JWT payload: a JS object, i.e. an association list with its
insertion order.  Keys are unique in any object built by `setClaim`. -/
abbrev Payload : Type := List (String × JValue)

/-- Field lookup on a JS object (association list): the value at the
first occurrence of the key. -/
def assocGet {α : Type} : List (String × α) → String → Option α
  | [], _ => none
  | kv :: rest, k => if kv.1 = k then some kv.2 else assocGet rest k

/-- JS object spread update `{...l, k: v}`: if `k` is present its value
is replaced in place (keeping its position), otherwise the pair is
appended.  (A JS object holds each key at most once.) -/
def assocSet {α : Type} : List (String × α) → String → α → List (String × α)
  | [], k, v => [(k, v)]
  | kv :: rest, k, v =>
    if kv.1 = k then (k, v) :: rest else kv :: assocSet rest k v

/-- Field lookup on a JWT payload. -/
def getClaim (p : Payload) (k : String) : Option JValue := assocGet p k

/-- Spread update `{...p, k: v}` on a JWT payload. -/
def setClaim (p : Payload) (k : String) (v : JValue) : Payload := assocSet p k v

/-! ## Time: `now()` from jwt.ts and jose's `epoch` -/

/-- JS `x | 0` on a non-negative number: ToInt32 (truncate, wrap mod 2^32
into the signed range). -/
def jsToInt32 (n : Nat) : Int :=
  let m : Nat := n % 2 ^ 32
  if m < 2 ^ 31 then (m : Int) else (m : Int) - 2 ^ 32

/-- `const now = () => (Date.now() / 1000) | 0` from jwt.ts, applied to a
millisecond clock reading. -/
def nowSec (dateNowMs : Nat) : Int := jsToInt32 (dateNowMs / 1000)

/-- jose's `epoch`: `Math.floor(date.getTime() / 1000)` (no ToInt32). -/
def joseEpoch (dateNowMs : Nat) : Int := (dateNowMs / 1000 : Nat)

/-! ## Key derivation and the symbolic JWE token -/

/-- A key produced by HKDF.  The model is symbolic: the key is identified
with the tuple of HKDF inputs, so two derivations agree exactly when all
inputs agree. -/
structure DerivedKey where
  hash : String
  ikm : String
  salt : String
  info : String
  length : Nat
  deriving DecidableEq, Repr

/-- `hkdf(digest, ikm, salt, info, keylen)` from @panva/hkdf, symbolically. -/
def hkdf (hash ikm salt info : String) (length : Nat) : DerivedKey :=
  { hash := hash, ikm := ikm, salt := salt, info := info, length := length }

/-- `getDerivedEncryptionKey` from jwt.ts. -/
def getDerivedEncryptionKey (secret : String) : DerivedKey :=
  hkdf "sha256" secret "" "Auth.js Generated Encryption Key" 32

/-- A JWE protected header. -/
structure JoseHeader where
  alg : String
  enc : String
  deriving DecidableEq, Repr

/-- A JWE in compact serialization, symbolically: the protected header,
the key the content was encrypted under, and the plaintext JWT claims. -/
structure JWEToken where
  header : JoseHeader
  key : DerivedKey
  payload : Payload
  deriving DecidableEq

/-! ## `encode` -/

/-- `DEFAULT_MAX_AGE = 30 * 24 * 60 * 60` from jwt.ts. -/
def DEFAULT_MAX_AGE : Int := 30 * 24 * 60 * 60

/-- Parameters of `encode`.  `maxAge := none` models an omitted `maxAge`
(the destructuring default `maxAge = DEFAULT_MAX_AGE` then applies);
`token := []` likewise models the `token = {}` default. -/
structure JWTEncodeParams where
  token : Payload := []
  secret : String
  maxAge : Option Int := none

/-- `encode` from jwt.ts.  The nondeterministic inputs are explicit:
`dateNowMs` is the `Date.now()` reading and `jti` the
`crypto.randomUUID()` value.  jose's `EncryptJWT` sets the protected
header, then `setIssuedAt` / `setExpirationTime` / `setJti` each perform
a spread update of the claims, overwriting any claim of the same name. -/
def encode (params : JWTEncodeParams) (dateNowMs : Nat) (jti : String) : JWEToken :=
  let maxAge := params.maxAge.getD DEFAULT_MAX_AGE
  { header := { alg := "dir", enc := "A256GCM" }
    key := getDerivedEncryptionKey params.secret
    payload :=
      setClaim
        (setClaim
          (setClaim params.token "iat" (.num (joseEpoch dateNowMs)))
          "exp" (.num (nowSec dateNowMs + maxAge)))
        "jti" (.str jti) }

/-! ## jose `jwtDecrypt` and `decode` -/

/-- Errors raised by jose while decrypting and validating a JWT. -/
inductive JoseError where
  | decryptionFailed
  | claimInvalid (claim : String)
  | expired
  deriving DecidableEq, Repr

/-- jose claim check: `iat`, when present, must be a number. -/
def iatOk (p : Payload) : Bool :=
  match getClaim p "iat" with
  | none => true
  | some (.num _) => true
  | some _ => false

/-- jose claim check: `nbf`, when present, must be a number not in the
future beyond the clock tolerance. -/
def nbfStatus (p : Payload) (now tol : Int) : Bool :=
  match getClaim p "nbf" with
  | none => true
  | some (.num nbf) => decide (nbf ≤ now + tol)
  | some _ => false

/-- jose claim check on `exp`: `none` means pass, otherwise the error. -/
def expStatus (p : Payload) (now tol : Int) : Option JoseError :=
  match getClaim p "exp" with
  | none => none
  | some (.num e) => if e ≤ now - tol then some .expired else none
  | some _ => some (.claimInvalid "exp")

/-- jose `jwtDecrypt(token, key, { clockTolerance })`: direct decryption
succeeds exactly when the supplied key equals the encryption key, then
the JWT claims set is validated. -/
def jwtDecrypt (tok : JWEToken) (key : DerivedKey) (dateNowMs : Nat)
    (clockTolerance : Int) : Except JoseError Payload :=
  if tok.key ≠ key then .error .decryptionFailed
  else
    let now := joseEpoch dateNowMs
    if ¬ iatOk tok.payload then .error (.claimInvalid "iat")
    else if ¬ nbfStatus tok.payload now clockTolerance then .error (.claimInvalid "nbf")
    else
      match expStatus tok.payload now clockTolerance with
      | some e => .error e
      | none => .ok tok.payload

/-- A candidate token string, as found in a cookie or header: absent
strings are `Option.none` at the call sites, the empty string is
`TokenStr.empty`, a string that is not an Auth.js JWE is `garbled`, and a
compact-serialized Auth.js JWE is `jwe`. -/
inductive TokenStr where
  | empty
  | garbled (s : String)
  | jwe (t : JWEToken)
  deriving DecidableEq

/-- `decode` from jwt.ts: `if (!token) return null` (absent or empty
token), otherwise derive the key and `jwtDecrypt` with clock tolerance
15. -/
def decode (token : Option TokenStr) (secret : String) (dateNowMs : Nat) :
    Except JoseError (Option Payload) :=
  match token with
  | none => .ok none
  | some .empty => .ok none
  | some (.garbled _) => .error .decryptionFailed
  | some (.jwe t) =>
    (jwtDecrypt t (getDerivedEncryptionKey secret) dateNowMs 15).map some

/-! ## `decodeURIComponent` (ECMA-262 `Decode` with an empty reserved set) -/

/-- Hex digit test used by the `%XX` escape grammar. -/
def isHexDigit (c : Char) : Bool :=
  c.isDigit || ('a' ≤ c && c ≤ 'f') || ('A' ≤ c && c ≤ 'F')

/-- Value of a hex digit. -/
def hexVal (c : Char) : Nat :=
  if c.isDigit then c.toNat - '0'.toNat
  else if 'a' ≤ c && c ≤ 'f' then c.toNat - 'a'.toNat + 10
  else c.toNat - 'A'.toNat + 10

/-- One item of a URI component: a literal character, or the byte of a
`%XX` escape. -/
inductive PItem where
  | raw (c : Char)
  | esc (b : Nat)
  deriving DecidableEq, Repr

/-- Scan the `%XX` escapes of a string; `none` is the URIError raised on
a `%` not followed by two hex digits. -/
def pTokenize : List Char → Option (List PItem)
  | [] => some []
  | '%' :: c1 :: c2 :: rest =>
    if isHexDigit c1 && isHexDigit c2 then
      (pTokenize rest).map (fun is => .esc (16 * hexVal c1 + hexVal c2) :: is)
    else none
  | '%' :: _ => none
  | c :: rest => (pTokenize rest).map (fun is => .raw c :: is)

/-- The payload bits of a UTF-8 continuation byte coming from an escape;
`none` when the item is not an escaped continuation byte. -/
def escCont : PItem → Option Nat
  | .esc b => if 0x80 ≤ b && b ≤ 0xBF then some (b - 0x80) else none
  | .raw _ => none

/-- UTF-8 decoding of the escaped bytes (literal characters pass
through); `none` is the URIError on an invalid byte sequence: lone or
misplaced continuation bytes, overlong forms, surrogate code points, or
code points above 0x10FFFF. -/
def pDecode : List PItem → Option (List Char)
  | [] => some []
  | .raw c :: rest => (pDecode rest).map (fun cs => c :: cs)
  | .esc b :: rest =>
    if b < 0x80 then (pDecode rest).map (fun cs => Char.ofNat b :: cs)
    else if 0xC2 ≤ b && b ≤ 0xDF then
      match rest with
      | i2 :: r =>
        match escCont i2 with
        | some v2 => (pDecode r).map (fun cs => Char.ofNat ((b - 0xC0) * 64 + v2) :: cs)
        | none => none
      | [] => none
    else if 0xE0 ≤ b && b ≤ 0xEF then
      match rest with
      | i2 :: i3 :: r =>
        match escCont i2, escCont i3 with
        | some v2, some v3 =>
          let cp := (b - 0xE0) * 4096 + v2 * 64 + v3
          if cp < 0x800 || (0xD800 ≤ cp && cp ≤ 0xDFFF) then none
          else (pDecode r).map (fun cs => Char.ofNat cp :: cs)
        | _, _ => none
      | _ => none
    else if 0xF0 ≤ b && b ≤ 0xF4 then
      match rest with
      | i2 :: i3 :: i4 :: r =>
        match escCont i2, escCont i3, escCont i4 with
        | some v2, some v3, some v4 =>
          let cp := (b - 0xF0) * 262144 + v2 * 4096 + v3 * 64 + v4
          if cp < 0x10000 || 0x10FFFF < cp then none
          else (pDecode r).map (fun cs => Char.ofNat cp :: cs)
        | _, _, _ => none
      | _ => none
    else none

/-- The URIError thrown by `decodeURIComponent` on malformed input. -/
inductive URIErrorE where
  | malformed
  deriving DecidableEq, Repr

/-- JS `decodeURIComponent` on a string argument. -/
def decodeURIComponent (s : String) : Except URIErrorE String :=
  match pTokenize s.toList with
  | none => .error .malformed
  | some items =>
    match pDecode items with
    | none => .error .malformed
    | some cs => .ok (String.mk cs)

/-- Accumulator form of JS `String.prototype.split(" ")`. -/
def splitSpaceAux : List Char → List Char → List String
  | [], acc => [String.mk acc.reverse]
  | c :: rest, acc =>
    if c = ' ' then String.mk acc.reverse :: splitSpaceAux rest []
    else splitSpaceAux rest (c :: acc)

/-- JS `s.split(" ")`: the fragments between the space characters
(adjacent separators produce empty fragments; the result is never the
empty list). -/
def jsSplitSpace (s : String) : List String := splitSpaceAux s.toList []

/-- JS ToString of a possibly-undefined string: `undefined` coerces to
the literal string "undefined" (this is what
`decodeURIComponent(header.split(" ")[1])` receives when the header has
no second word). -/
def jsStringOfOption : Option String → String
  | none => "undefined"
  | some s => s

/-- JS string truthiness of a possibly-undefined string: `!x` is true for
`undefined` and for the empty string. -/
def jsFalsy : Option String → Bool
  | none => true
  | some s => s.isEmpty

/-! ## `getToken` -/

/-- The request cookies: a JS record of cookie names to values. -/
abbrev CookieJar := List (String × String)

/-- Record field lookup. -/
def cookieLookup (cookies : CookieJar) (name : String) : Option String :=
  assocGet cookies name

/-- The parts of the request `getToken` consults: the cookie record and
the `Authorization` header (`headers.authorization`). -/
structure ReqModel where
  cookies : CookieJar
  authorization : Option String

/-- The session cookie name defaulting of `getToken`. -/
def sessionCookieName (secureCookie : Bool) : String :=
  if secureCookie then "__Secure-next-auth.session-token"
  else "next-auth.session-token"

/-- Modelled from the spec: `SessionStore` lives in
`packages/core/src/lib/cookie.ts`, which is not among the source files;
the spec says the token "is read from the session cookie" of the
configured name, so the store's `value` getter is modelled as the cookie
of that name. -/
def sessionStoreValue (cookieName : String) (cookies : CookieJar) : Option String :=
  cookieLookup cookies cookieName

/-- Arguments of `getToken`, after the environment-dependent defaults
(`secureCookie` from NEXTAUTH_URL/VERCEL, `secret` from AUTH_SECRET)
have been resolved: `req := none` models a missing `req`, `secret`
is the resolved secret (absent when neither the parameter nor the
environment provides one). -/
structure GetTokenParams where
  req : Option ReqModel
  secureCookie : Bool := false
  cookieName : Option String := none
  raw : Bool := false
  secret : Option String := none

/-- Errors `getToken` can raise. -/
inductive GetTokenError where
  | missingReq
  | missingSecret
  | uriError
  deriving DecidableEq, Repr

/-- What `getToken` returns on success: the raw JWT string, or the
decoded payload (absent when the result is `null`). -/
inductive TokenResult where
  | raw (s : String)
  | payload (p : Payload)
  deriving DecidableEq

/-- The condition `authorizationHeader?.split(" ")[0] === "Bearer"`. -/
def bearerCond (auth : Option String) : Bool :=
  match auth with
  | none => false
  | some a => (jsSplitSpace a).head? == some "Bearer"

/-- The `try { return await _decode({ token, secret }) } catch { return
null }` step of `getToken`: the decoded payload, with any decoding error
caught and turned into `null`. -/
def decodeCatch (decodeFn : String → String → Except JoseError (Option Payload))
    (t secret : String) : Option TokenResult :=
  match decodeFn t secret with
  | .ok p? => p?.map TokenResult.payload
  | .error _ => none

/-- `getToken` from jwt.ts, parameterized (as in the source, via its
`decode` option whose default is `decode`) by the decode function
`decodeFn token secret`.  Control flow follows the source: read the
session cookie; if that is falsy and the `Authorization` header starts
with `Bearer`, take `decodeURIComponent` of the header's second word
(`undefined` coercing to "undefined"); return `null` if the token is
still falsy; return the raw string if `raw`; otherwise decode, turning
any decode error into `null`. -/
def getToken (params : GetTokenParams)
    (decodeFn : String → String → Except JoseError (Option Payload)) :
    Except GetTokenError (Option TokenResult) :=
  match params.req with
  | none => .error .missingReq
  | some req =>
    match params.secret with
    | none => .error .missingSecret
    | some secret =>
      if secret.isEmpty then .error .missingSecret
      else
        let cookieName := params.cookieName.getD (sessionCookieName params.secureCookie)
        let token0 := sessionStoreValue cookieName req.cookies
        let step : Except GetTokenError (Option String) :=
          if jsFalsy token0 && bearerCond req.authorization then
            match req.authorization with
            | none => .ok token0
            | some a =>
              match decodeURIComponent (jsStringOfOption ((jsSplitSpace a).get? 1)) with
              | .error _ => .error .uriError
              | .ok t => .ok (some t)
          else .ok token0
        match step with
        | .error e => .error e
        | .ok token1 =>
          if jsFalsy token1 then .ok none
          else
            match token1 with
            | none => .ok none
            | some t =>
              if params.raw then .ok (some (.raw t))
              else .ok (decodeCatch decodeFn t secret)

/-- The result for a found token string, as the claim describes it: the
raw string when `raw` is set, otherwise the decoded payload, with any
decoding error giving `null`. -/
def resolveToken (rawFlag : Bool) (secret : String)
    (decodeFn : String → String → Except JoseError (Option Payload))
    (t : String) : Option TokenResult :=
  if rawFlag then some (.raw t)
  else decodeCatch decodeFn t secret

/-- The claim's description of `getToken` (as amended): the token is
read from the session cookie of the configured name; only when that
cookie is absent or empty is it read from an `Authorization: Bearer`
header, URL-decoding the header's second word — a missing second word
URL-decodes, through the JS coercion of `undefined`, to the literal
string "undefined", and a malformed percent-encoding raises URIError;
if neither source yields a non-empty token the result is null;
otherwise the raw string is returned when `raw` is set, else the
decoded payload. -/
def getTokenSpec (r : ReqModel) (secureCookie rawFlag : Bool)
    (cookieName : Option String) (secret : String)
    (decodeFn : String → String → Except JoseError (Option Payload)) :
    Except GetTokenError (Option TokenResult) :=
  let name := cookieName.getD (sessionCookieName secureCookie)
  let fromCookie : Option String :=
    match sessionStoreValue name r.cookies with
    | some t => if t.isEmpty then none else some t
    | none => none
  match fromCookie with
  | some t => .ok (resolveToken rawFlag secret decodeFn t)
  | none =>
    match r.authorization with
    | none => .ok none
    | some a =>
      if (jsSplitSpace a).head? == some "Bearer" then
        match decodeURIComponent (jsStringOfOption ((jsSplitSpace a).get? 1)) with
        | .error _ => .error .uriError
        | .ok t =>
          if t.isEmpty then .ok none
          else .ok (resolveToken rawFlag secret decodeFn t)
      else .ok none

/-! ## The MikroORM adapter

The entity manager is modelled as a list of rows per table; `findOne`
returns the first matching row, `removeAndFlush` deletes the found
entity, and `persistAndFlush` after an in-place `assign` leaves the
matched row holding the assigned values.  A thrown JS error aborts the
operation before any flush, so the store part of the result is the input
store. -/

namespace MikroOrm

/-- A Session row (the adapter's `AdapterSession` shape). -/
structure SessionRec where
  sessionToken : String
  userId : String
  expires : Int
  deriving DecidableEq, Repr

/-- The partial session passed to `updateSession`: `sessionToken` is
required, the other fields optional. -/
structure SessionUpdate where
  sessionToken : String
  userId : Option String := none
  expires : Option Int := none
  deriving DecidableEq, Repr

/-- `wrap(entity).assign(data)` on a (non-null) session entity: every
field present in `data` overwrites the entity's field. -/
def assignSession (s : SessionRec) (d : SessionUpdate) : SessionRec :=
  { sessionToken := d.sessionToken
    userId := d.userId.getD s.userId
    expires := d.expires.getD s.expires }

/-- `em.findOne(SessionModel, { sessionToken })`. -/
def findOneSession (db : List SessionRec) (sessionToken : String) :
    Option SessionRec :=
  db.find? (fun s => s.sessionToken = sessionToken)

/-- A JS error surfaced by an adapter method: a TypeError from a null
dereference, or an `Error` constructed with a message. -/
inductive AdapterError where
  | typeError (msg : String)
  | jsError (msg : String)
  deriving DecidableEq, Repr

/-- `wrap(session).assign(data)`: MikroORM's `wrap` returns its argument
unchanged when it is null, so calling `.assign` on the result of
`findOne` dereferences null and raises a TypeError when no session
matched. -/
def wrapAssignSession (s : Option SessionRec) (d : SessionUpdate) :
    Except AdapterError SessionRec :=
  match s with
  | none => .error (.typeError "Cannot read properties of null - reading assign")
  | some s => .ok (assignSession s d)

/-- Flush of an in-place `assign`: the first row matching the token now
holds the assigned values. -/
def replaceFirstSession : List SessionRec → String → SessionRec → List SessionRec
  | [], _, _ => []
  | row :: rest, tok, s =>
    if row.sessionToken = tok then s :: rest
    else row :: replaceFirstSession rest tok s

/-- `updateSession` of the MikroORM adapter, in source order: `findOne`,
then `wrap(session).assign(data)`, then the `if (!session) throw new
Error("Session not found")` check, then `persistAndFlush`.  The result
pairs the outcome with the resulting session store. -/
def updateSession (db : List SessionRec) (data : SessionUpdate) :
    Except AdapterError SessionRec × List SessionRec :=
  let session := findOneSession db data.sessionToken
  match wrapAssignSession session data with
  | .error e => (.error e, db)
  | .ok assigned =>
    match session with
    | none => (.error (.jsError "Session not found"), db)
    | some _ => (.ok assigned, replaceFirstSession db data.sessionToken assigned)

/-- A VerificationToken row. -/
structure VerificationTokenRec where
  identifier : String
  token : String
  expires : Int
  deriving DecidableEq, Repr

/-- The `{ identifier, token }` match used by `useVerificationToken`. -/
def matchesVT (identifier token : String) (v : VerificationTokenRec) : Bool :=
  v.identifier = identifier && v.token = token

/-- `em.getRepository(VerificationTokenModel).findOne(params)`. -/
def findOneVT (db : List VerificationTokenRec) (identifier token : String) :
    Option VerificationTokenRec :=
  db.find? (matchesVT identifier token)

/-- `em.removeAndFlush(verificationToken)`: the found entity — the first
matching row — is deleted. -/
def removeFirstVT : List VerificationTokenRec → String → String → List VerificationTokenRec
  | [], _, _ => []
  | v :: rest, identifier, token =>
    if matchesVT identifier token v then rest
    else v :: removeFirstVT rest identifier token

/-- `useVerificationToken` of the MikroORM adapter: find the token by
identifier and token; return null leaving the store unchanged when there
is none, otherwise remove it and return it. -/
def useVerificationToken (db : List VerificationTokenRec)
    (identifier token : String) :
    Option VerificationTokenRec × List VerificationTokenRec :=
  match findOneVT db identifier token with
  | none => (none, db)
  | some vt => (some vt, removeFirstVT db identifier token)

end MikroOrm

/-! ## SvelteKit client helpers

`signIn` and `signOut` are modelled by the list of fetch calls they
issue, in order.  The value the `{basePath}/auth/csrf` endpoint returns
for the first fetch is the explicit `csrfToken` argument. -/

namespace SvelteKitClient

/-- One `fetch` call: URL, method, and the urlencoded form body as a
key-value record (empty for a plain GET). -/
structure FetchCall where
  url : String
  method : String
  body : List (String × String)
  deriving DecidableEq, Repr

/-- Record field lookup. -/
def jsGet (l : List (String × String)) (k : String) : Option String :=
  assocGet l k

/-- JS object spread update `{...l, k: v}`. -/
def jsSet (l : List (String × String)) (k v : String) : List (String × String) :=
  assocSet l k v

/-- Upper-case hex digit. -/
def hexDigitUpper (n : Nat) : Char :=
  if n < 10 then Char.ofNat ('0'.toNat + n) else Char.ofNat ('A'.toNat + n - 10)

/-- `%XX` escape of one byte. -/
def percentByte (b : Nat) : String :=
  String.mk ['%', hexDigitUpper (b / 16), hexDigitUpper (b % 16)]

/-- application/x-www-form-urlencoded serialization of one character
(as `URLSearchParams.toString` performs it): alphanumerics and
`*`, `-`, `.`, `_` pass through, space becomes `+`, everything else is
percent-encoded byte-wise from UTF-8. -/
def formEncodeChar (c : Char) : String :=
  if c.isAlphanum || c = '*' || c = '-' || c = '.' || c = '_' then
    String.singleton c
  else if c = ' ' then "+"
  else String.join (((String.singleton c).toUTF8.toList).map (fun b => percentByte b.toNat))

/-- application/x-www-form-urlencoded serialization of a string. -/
def formEncodeStr (s : String) : String :=
  String.join (s.toList.map formEncodeChar)

/-- `new URLSearchParams(record).toString()`. -/
def urlSearchParamsToString (l : List (String × String)) : String :=
  String.intercalate "&" (l.map (fun kv => formEncodeStr kv.1 ++ "=" ++ formEncodeStr kv.2))

/-- Arguments of the SvelteKit `signIn` helper.  `base` is SvelteKit's
`$app/paths` base (`basePath = base ?? ""`); `options` is the JS options
object flattened to the string record `URLSearchParams` would see;
`windowLocationHref` is `window.location.href`, the `callbackUrl`
default. -/
structure SignInCallArgs where
  providerId : String
  options : Option (List (String × String)) := none
  authorizationParams : List (String × String) := []
  base : Option String := none
  windowLocationHref : String

/-- The fetch calls `signIn` performs, in order: the CSRF-token fetch
from `{basePath}/auth/csrf`, then the POST of the urlencoded body
`{...options, csrfToken, callbackUrl}` to
`{basePath}/auth/{callback|signin}/{providerId}?{authorizationParams}`
("callback" exactly for the "credentials" provider). -/
def signInRequests (args : SignInCallArgs) (csrfToken : String) : List FetchCall :=
  let opts := args.options.getD []
  let callbackUrl := (jsGet opts "callbackUrl").getD args.windowLocationHref
  let basePath := args.base.getD ""
  let isCredentials := args.providerId = "credentials"
  let signInUrl := basePath ++ "/auth/" ++
    (if isCredentials then "callback" else "signin") ++ "/" ++ args.providerId
  let fullSignInUrl := signInUrl ++ "?" ++ urlSearchParamsToString args.authorizationParams
  [ { url := basePath ++ "/auth/csrf", method := "get", body := [] },
    { url := fullSignInUrl, method := "post",
      body := jsSet (jsSet opts "csrfToken" csrfToken) "callbackUrl" callbackUrl } ]

/-- Arguments of the SvelteKit `signOut` helper. -/
structure SignOutCallArgs where
  options : Option (List (String × String)) := none
  base : Option String := none
  windowLocationHref : String

/-- The fetch calls `signOut` performs, in order: the CSRF-token fetch
from `{basePath}/auth/csrf`, then the POST of the urlencoded body
`{csrfToken, callbackUrl}` to `{basePath}/auth/signout`. -/
def signOutRequests (args : SignOutCallArgs) (csrfToken : String) : List FetchCall :=
  let opts := args.options.getD []
  let callbackUrl := (jsGet opts "callbackUrl").getD args.windowLocationHref
  let basePath := args.base.getD ""
  [ { url := basePath ++ "/auth/csrf", method := "get", body := [] },
    { url := basePath ++ "/auth/signout", method := "post",
      body := jsSet (jsSet [] "csrfToken" csrfToken) "callbackUrl" callbackUrl } ]

end SvelteKitClient

/-! ## `generate-providers.js` -/

namespace GenerateProviders

/-- `nonOAuthFile` from generate-providers.js. -/
def nonOAuthFile : List String :=
  ["oauth-types", "oauth", "index", "email", "credentials"]

/-- JS `file.indexOf(".")` over the characters: the index of the first
dot, or `none` standing for -1. -/
def jsIndexOfDot : List Char → Option Nat
  | [] => none
  | c :: rest => if c = '.' then some 0 else (jsIndexOfDot rest).map (fun i => i + 1)

/-- `file.substring(0, file.indexOf("."))`: the prefix before the first
dot; on a file without a dot, `indexOf` gives -1 and `substring(0, -1)`
clamps to the empty string. -/
def strippedProviderName (file : String) : String :=
  match jsIndexOfDot file.toList with
  | some i => String.mk (file.toList.take i)
  | none => ""

/-- The template-literal quoting of a provider name. -/
def quoteName (s : String) : String := "\"" ++ s ++ "\""

/-- `provider.replace(/"/g, '')`: drop every double-quote character. -/
def stripQuotes (s : String) : String :=
  String.mk (s.toList.filter (fun c => c ≠ '\"'))

/-- The `providers` array of generate-providers.js: quote each stripped
file name, then drop the entries whose unquoted form is one of the five
non-OAuth names. -/
def providers (files : List String) : List String :=
  (files.map (fun file => quoteName (strippedProviderName file))).filter
    (fun provider => ! nonOAuthFile.contains (stripQuotes provider))

/-- The members of the generated `OAuthProviderType` union: the string
literal each quoted entry denotes. -/
def oauthProviderTypeMembers (files : List String) : List String :=
  (providers files).map stripQuotes

/-- The claim's own description of the union ("the base names — text
before the first dot — of the files in src/providers, excluding the five
non-OAuth names"), stated independently of the generator code. -/
def specOAuthProviderNames (files : List String) : List String :=
  (files.map (fun file => String.mk (file.toList.takeWhile (fun c => c ≠ '.')))).filter
    (fun name => ! nonOAuthFile.contains name)

end GenerateProviders

/-! # Helper lemmas -/

theorem assocGet_assocSet_self {α : Type} (l : List (String × α)) (k : String) (v : α) :
    assocGet (assocSet l k v) k = some v := by
  induction l with
  | nil => simp [assocGet, assocSet]
  | cons hd tl ih =>
    by_cases hk : hd.1 = k
    · simp [assocGet, assocSet, hk]
    · simp [assocGet, assocSet, hk, ih]

theorem assocGet_assocSet_of_ne {α : Type} (l : List (String × α)) (k k' : String) (v : α)
    (h : k' ≠ k) :
    assocGet (assocSet l k' v) k = assocGet l k := by
  induction l with
  | nil => simp [assocGet, assocSet, h]
  | cons hd tl ih =>
    by_cases hk : hd.1 = k'
    · have hdk : hd.1 ≠ k := by rw [hk]; exact h
      simp [assocGet, assocSet, hk, h, hdk]
    · by_cases hdk : hd.1 = k
      · simp [assocGet, assocSet, hk, hdk, Ne.symm h]
      · simp [assocGet, assocSet, hk, hdk, ih]

theorem nowSec_eq_joseEpoch (ms : Nat) (h : ms / 1000 < 2 ^ 31) :
    nowSec ms = joseEpoch ms := by
  unfold nowSec jsToInt32 joseEpoch
  have h32 : ms / 1000 < 2 ^ 32 := lt_trans h (by norm_num)
  simp only [Nat.mod_eq_of_lt h32, if_pos h]

theorem getClaim_encode_exp (tok : Payload) (iv ev jv : JValue) :
    getClaim (setClaim (setClaim (setClaim tok "iat" iv) "exp" ev) "jti" jv) "exp"
      = some ev := by
  show assocGet (assocSet (assocSet (assocSet tok "iat" iv) "exp" ev) "jti" jv) "exp"
      = some ev
  rw [assocGet_assocSet_of_ne _ _ _ _ (by decide), assocGet_assocSet_self]

theorem getClaim_encode_iat (tok : Payload) (iv ev jv : JValue) :
    getClaim (setClaim (setClaim (setClaim tok "iat" iv) "exp" ev) "jti" jv) "iat"
      = some iv := by
  show assocGet (assocSet (assocSet (assocSet tok "iat" iv) "exp" ev) "jti" jv) "iat"
      = some iv
  rw [assocGet_assocSet_of_ne _ _ _ _ (by decide),
      assocGet_assocSet_of_ne _ _ _ _ (by decide), assocGet_assocSet_self]

theorem getClaim_encode_jti (tok : Payload) (iv ev jv : JValue) :
    getClaim (setClaim (setClaim (setClaim tok "iat" iv) "exp" ev) "jti" jv) "jti"
      = some jv := by
  show assocGet (assocSet (assocSet (assocSet tok "iat" iv) "exp" ev) "jti" jv) "jti"
      = some jv
  rw [assocGet_assocSet_self]

theorem getClaim_encode_other (tok : Payload) (iv ev jv : JValue) (k : String)
    (hi : k ≠ "iat") (he : k ≠ "exp") (hj : k ≠ "jti") :
    getClaim (setClaim (setClaim (setClaim tok "iat" iv) "exp" ev) "jti" jv) k
      = getClaim tok k := by
  show assocGet (assocSet (assocSet (assocSet tok "iat" iv) "exp" ev) "jti" jv) k
      = assocGet tok k
  rw [assocGet_assocSet_of_ne _ _ _ _ (Ne.symm hj),
      assocGet_assocSet_of_ne _ _ _ _ (Ne.symm he),
      assocGet_assocSet_of_ne _ _ _ _ (Ne.symm hi)]

theorem getToken_eq_getTokenSpec (r : ReqModel) (secureCookie rawFlag : Bool)
    (cookieName : Option String) (secret : String)
    (decodeFn : String → String → Except JoseError (Option Payload))
    (hsec : secret.isEmpty = false) :
    getToken
      { req := some r
        secureCookie := secureCookie
        cookieName := cookieName
        raw := rawFlag
        secret := some secret } decodeFn
      = getTokenSpec r secureCookie rawFlag cookieName secret decodeFn := by
  obtain ⟨cookies, auth⟩ := r
  cases hc : sessionStoreValue (cookieName.getD (sessionCookieName secureCookie)) cookies with
  | some t =>
    by_cases ht : t.isEmpty
    · cases auth with
      | none => simp [getToken, getTokenSpec, hsec, hc, ht, jsFalsy, bearerCond]
      | some a =>
        by_cases hb : ((jsSplitSpace a).head? == some "Bearer") = true
        · cases hd : decodeURIComponent (jsStringOfOption (jsSplitSpace a)[1]?) with
          | error e =>
            simp [getToken, getTokenSpec, hsec, hc, ht, jsFalsy, bearerCond, hb, hd]
          | ok t2 =>
            by_cases ht2 : t2.isEmpty
            · simp [getToken, getTokenSpec, hsec, hc, ht, jsFalsy, bearerCond, hb, hd, ht2]
            · by_cases hraw : rawFlag <;>
                simp [getToken, getTokenSpec, resolveToken, hsec, hc, ht, jsFalsy, bearerCond,
                  hb, hd, ht2, hraw]
        · simp [getToken, getTokenSpec, hsec, hc, ht, jsFalsy, bearerCond, hb]
    · by_cases hraw : rawFlag <;>
        simp [getToken, getTokenSpec, resolveToken, hsec, hc, ht, jsFalsy, hraw]
  | none =>
    cases auth with
    | none => simp [getToken, getTokenSpec, hsec, hc, jsFalsy, bearerCond]
    | some a =>
      by_cases hb : ((jsSplitSpace a).head? == some "Bearer") = true
      · cases hd : decodeURIComponent (jsStringOfOption (jsSplitSpace a)[1]?) with
        | error e =>
          simp [getToken, getTokenSpec, hsec, hc, jsFalsy, bearerCond, hb, hd]
        | ok t2 =>
          by_cases ht2 : t2.isEmpty
          · simp [getToken, getTokenSpec, hsec, hc, jsFalsy, bearerCond, hb, hd, ht2]
          · by_cases hraw : rawFlag <;>
              simp [getToken, getTokenSpec, resolveToken, hsec, hc, jsFalsy, bearerCond,
                hb, hd, ht2, hraw]
      · simp [getToken, getTokenSpec, hsec, hc, jsFalsy, bearerCond, hb]

/-! # Claim theorems -/

/-- C2: for every secret, `encode` issues the JWT as a JWE whose
protected header has alg "dir" and enc "A256GCM", encrypted under the
32-byte key derived from the secret by HKDF-SHA256 with empty salt and
info "Auth.js Generated Encryption Key"; `decode` derives its decryption
key from the same secret by the same derivation. -/
theorem encode_uses_dir_A256GCM_hkdf_derived_key (secret : String) (p : Payload)
    (maxAge : Option Int) (ms : Nat) (jti : String) :
    (encode { token := p, secret := secret, maxAge := maxAge } ms jti).header
        = { alg := "dir", enc := "A256GCM" }
    ∧ (encode { token := p, secret := secret, maxAge := maxAge } ms jti).key
        = hkdf "sha256" secret "" "Auth.js Generated Encryption Key" 32
    ∧ (encode { token := p, secret := secret, maxAge := maxAge } ms jti).key.length = 32
    ∧ (∀ tok, decode (some (.jwe tok)) secret ms
        = (jwtDecrypt tok (getDerivedEncryptionKey secret) ms 15).map some)
    ∧ getDerivedEncryptionKey secret
        = hkdf "sha256" secret "" "Auth.js Generated Encryption Key" 32 :=
  ⟨rfl, rfl, rfl, fun _ => rfl, rfl⟩

/-- C9: `encode` sets the expiration claim to the current time in whole
seconds plus the given `maxAge` — plus `DEFAULT_MAX_AGE = 2592000`
seconds (30 days) when `maxAge` is omitted — and the issued-at claim to
the current time (stated for clock readings below the 2038 ToInt32
wrap of `now()`). -/
theorem encode_sets_exp_and_iat (p : Payload) (s : String) (ms : Nat) (jti : String)
    (hms : ms / 1000 < 2 ^ 31) :
    getClaim (encode { token := p, secret := s } ms jti).payload "exp"
        = some (.num ((ms / 1000 : Nat) + DEFAULT_MAX_AGE))
    ∧ DEFAULT_MAX_AGE = 2592000
    ∧ (∀ ma : Int,
        getClaim (encode { token := p, secret := s, maxAge := some ma } ms jti).payload "exp"
          = some (.num ((ms / 1000 : Nat) + ma)))
    ∧ (∀ ma : Option Int,
        getClaim (encode { token := p, secret := s, maxAge := ma } ms jti).payload "iat"
          = some (.num (ms / 1000 : Nat))) := by
  have hn : nowSec ms = joseEpoch ms := nowSec_eq_joseEpoch ms hms
  refine ⟨?_, by norm_num [DEFAULT_MAX_AGE], fun ma => ?_, fun ma => ?_⟩
  · show getClaim (setClaim (setClaim (setClaim p "iat" (.num (joseEpoch ms)))
        "exp" (.num (nowSec ms + DEFAULT_MAX_AGE))) "jti" (.str jti)) "exp"
      = some (.num ((ms / 1000 : Nat) + DEFAULT_MAX_AGE))
    rw [getClaim_encode_exp, hn]
    rfl
  · show getClaim (setClaim (setClaim (setClaim p "iat" (.num (joseEpoch ms)))
        "exp" (.num (nowSec ms + ma))) "jti" (.str jti)) "exp"
      = some (.num ((ms / 1000 : Nat) + ma))
    rw [getClaim_encode_exp, hn]
    rfl
  · show getClaim (setClaim (setClaim (setClaim p "iat" (.num (joseEpoch ms)))
        "exp" (.num (nowSec ms + ma.getD DEFAULT_MAX_AGE))) "jti" (.str jti)) "iat"
      = some (.num (ms / 1000 : Nat))
    rw [getClaim_encode_iat]
    rfl

theorem getTokenSpec_error_is_uriError (r : ReqModel) (sc rawFlag : Bool)
    (cn : Option String) (secret : String)
    (decodeFn : String → String → Except JoseError (Option Payload)) (e : GetTokenError)
    (h : getTokenSpec r sc rawFlag cn secret decodeFn = .error e) :
    e = .uriError := by
  obtain ⟨cookies, auth⟩ := r
  cases hc : sessionStoreValue (cn.getD (sessionCookieName sc)) cookies with
  | some t =>
    by_cases ht : t.isEmpty
    · cases auth with
      | none => simp [getTokenSpec, hc, ht] at h
      | some a =>
        by_cases hb : ((jsSplitSpace a).head? == some "Bearer") = true
        · cases hd : decodeURIComponent (jsStringOfOption (jsSplitSpace a)[1]?) with
          | error e2 =>
            simp [getTokenSpec, hc, ht, hb, hd] at h
            exact h.symm
          | ok t2 =>
            by_cases ht2 : t2.isEmpty
            · simp [getTokenSpec, hc, ht, hb, hd, ht2] at h
            · simp [getTokenSpec, hc, ht, hb, hd, ht2] at h
        · simp [getTokenSpec, hc, ht, hb] at h
    · simp [getTokenSpec, hc, ht] at h
  | none =>
    cases auth with
    | none => simp [getTokenSpec, hc] at h
    | some a =>
      by_cases hb : ((jsSplitSpace a).head? == some "Bearer") = true
      · cases hd : decodeURIComponent (jsStringOfOption (jsSplitSpace a)[1]?) with
        | error e2 =>
          simp [getTokenSpec, hc, hb, hd] at h
          exact h.symm
        | ok t2 =>
          by_cases ht2 : t2.isEmpty
          · simp [getTokenSpec, hc, hb, hd, ht2] at h
          · simp [getTokenSpec, hc, hb, hd, ht2] at h
      · simp [getTokenSpec, hc, hb] at h

theorem getTokenSpec_raw_to_decodeCatch (r : ReqModel) (sc : Bool) (cn : Option String)
    (secret : String) (decodeFn : String → String → Except JoseError (Option Payload))
    (t : String)
    (h : getTokenSpec r sc true cn secret decodeFn = .ok (some (.raw t))) :
    getTokenSpec r sc false cn secret decodeFn = .ok (decodeCatch decodeFn t secret) := by
  obtain ⟨cookies, auth⟩ := r
  cases hc : sessionStoreValue (cn.getD (sessionCookieName sc)) cookies with
  | some t1 =>
    by_cases ht : t1.isEmpty
    · cases auth with
      | none => simp [getTokenSpec, hc, ht] at h
      | some a =>
        by_cases hb : ((jsSplitSpace a).head? == some "Bearer") = true
        · cases hd : decodeURIComponent (jsStringOfOption (jsSplitSpace a)[1]?) with
          | error e2 => simp [getTokenSpec, hc, ht, hb, hd] at h
          | ok t2 =>
            by_cases ht2 : t2.isEmpty
            · simp [getTokenSpec, hc, ht, hb, hd, ht2] at h
            · simp [getTokenSpec, resolveToken, hc, ht, hb, hd, ht2] at h ⊢
              rw [h]
        · simp [getTokenSpec, hc, ht, hb] at h
    · simp [getTokenSpec, resolveToken, hc, ht] at h ⊢
      rw [h]
  | none =>
    cases auth with
    | none => simp [getTokenSpec, hc] at h
    | some a =>
      by_cases hb : ((jsSplitSpace a).head? == some "Bearer") = true
      · cases hd : decodeURIComponent (jsStringOfOption (jsSplitSpace a)[1]?) with
        | error e2 => simp [getTokenSpec, hc, hb, hd] at h
        | ok t2 =>
          by_cases ht2 : t2.isEmpty
          · simp [getTokenSpec, hc, hb, hd, ht2] at h
          · simp [getTokenSpec, resolveToken, hc, hb, hd, ht2] at h ⊢
            rw [h]
      · simp [getTokenSpec, hc, hb] at h

theorem getClaim_encode_nbf (tok : Payload) (iv ev jv : JValue) :
    getClaim (setClaim (setClaim (setClaim tok "iat" iv) "exp" ev) "jti" jv) "nbf"
      = getClaim tok "nbf" :=
  getClaim_encode_other tok iv ev jv "nbf" (by decide) (by decide) (by decide)

theorem jwtDecrypt_ok_of_checks (tok : JWEToken) (key : DerivedKey) (ms : Nat) (tol : Int)
    (hk : tok.key = key) (hi : iatOk tok.payload = true)
    (hb : nbfStatus tok.payload (joseEpoch ms) tol = true)
    (he : expStatus tok.payload (joseEpoch ms) tol = none) :
    jwtDecrypt tok key ms tol = .ok tok.payload := by
  unfold jwtDecrypt
  rw [hk]
  simp [hi, hb, he]

/-- C1 (amended): for every payload p that uses none of the registered
claim names iat, exp and jti (which `encode` overwrites) nor nbf (which
`decode` validates), every non-empty secret and positive maxAge,
decoding the token produced by `encode` with the same secret succeeds
and returns a payload that contains every field of p unchanged, together
with the added iat, exp and jti fields (stated for clock readings below
the 2038 ToInt32 wrap of `now()`). -/
theorem jwt_encode_decode_roundtrip (p : Payload) (s : String) (maxAge : Int)
    (ms : Nat) (jti : String)
    (hsec : s.isEmpty = false) (hma : 0 < maxAge) (hms : ms / 1000 < 2 ^ 31)
    (hiat : getClaim p "iat" = none) (hexp : getClaim p "exp" = none)
    (hjti : getClaim p "jti" = none) (hnbf : getClaim p "nbf" = none) :
    ∃ q : Payload,
      decode (some (.jwe (encode { token := p, secret := s, maxAge := some maxAge } ms jti))) s ms
        = .ok (some q)
      ∧ (∀ k v, getClaim p k = some v → getClaim q k = some v)
      ∧ getClaim q "iat" = some (.num (joseEpoch ms))
      ∧ getClaim q "exp" = some (.num (joseEpoch ms + maxAge))
      ∧ getClaim q "jti" = some (.str jti) := by
  have hn : nowSec ms = joseEpoch ms := nowSec_eq_joseEpoch ms hms
  have hpay : (encode { token := p, secret := s, maxAge := some maxAge } ms jti).payload
      = setClaim (setClaim (setClaim p "iat" (.num (joseEpoch ms)))
          "exp" (.num (nowSec ms + maxAge))) "jti" (.str jti) := rfl
  have hiatP : getClaim (encode { token := p, secret := s, maxAge := some maxAge } ms jti).payload "iat"
      = some (.num (joseEpoch ms)) := by rw [hpay]; exact getClaim_encode_iat ..
  have hexpP : getClaim (encode { token := p, secret := s, maxAge := some maxAge } ms jti).payload "exp"
      = some (.num (nowSec ms + maxAge)) := by rw [hpay]; exact getClaim_encode_exp ..
  have hjtiP : getClaim (encode { token := p, secret := s, maxAge := some maxAge } ms jti).payload "jti"
      = some (.str jti) := by rw [hpay]; exact getClaim_encode_jti ..
  have hnbfP : getClaim (encode { token := p, secret := s, maxAge := some maxAge } ms jti).payload "nbf"
      = none := by rw [hpay, getClaim_encode_nbf]; exact hnbf
  have hdec : jwtDecrypt (encode { token := p, secret := s, maxAge := some maxAge } ms jti)
      (getDerivedEncryptionKey s) ms 15
      = .ok (encode { token := p, secret := s, maxAge := some maxAge } ms jti).payload := by
    refine jwtDecrypt_ok_of_checks _ _ _ _ rfl ?_ ?_ ?_
    · unfold iatOk; rw [hiatP]
    · unfold nbfStatus; rw [hnbfP]
    · unfold expStatus
      rw [hexpP, hn]
      have hlt : ¬ (joseEpoch ms + maxAge ≤ joseEpoch ms - 15) := by omega
      simp [hlt]
  refine ⟨(encode { token := p, secret := s, maxAge := some maxAge } ms jti).payload,
    ?_, ?_, hiatP, ?_, hjtiP⟩
  · show (jwtDecrypt (encode { token := p, secret := s, maxAge := some maxAge } ms jti)
        (getDerivedEncryptionKey s) ms 15).map some = _
    rw [hdec]
    rfl
  · intro k v hkv
    have hki : k ≠ "iat" := by
      intro he2; rw [he2, hiat] at hkv; exact Option.noConfusion hkv
    have hke : k ≠ "exp" := by
      intro he2; rw [he2, hexp] at hkv; exact Option.noConfusion hkv
    have hkj : k ≠ "jti" := by
      intro he2; rw [he2, hjti] at hkv; exact Option.noConfusion hkv
    rw [hpay, getClaim_encode_other p _ _ _ k hki hke hkj]
    exact hkv
  · rw [hexpP, hn]

/-- C1 counterexample: for the payload `{iat: 999}` (a payload object
with an `iat` field), decoding the encoded token yields a payload whose
`iat` field is the issue time, not the original value 999 — so the
decoded payload does not contain every field of the input unchanged. -/
theorem jwt_roundtrip_iat_overwritten :
    decode (some (.jwe (encode
        { token := [("iat", JValue.num 999)], secret := "s", maxAge := some 1 }
        1000000000000 "j"))) "s" 1000000000000
      = .ok (some [("iat", JValue.num 1000000000), ("exp", JValue.num 1000000001),
          ("jti", JValue.str "j")])
    ∧ getClaim [(("iat" : String), JValue.num 1000000000), ("exp", JValue.num 1000000001),
          ("jti", JValue.str "j")] "iat"
        ≠ some (JValue.num 999) := by
  exact ⟨rfl, by decide⟩

/-- Witness for C1 at a concrete payload, secret, maxAge and clock. -/
theorem jwt_encode_decode_roundtrip_witness :
    "secret1".isEmpty = false
    ∧ (0 : Int) < 60
    ∧ 1700000000000 / 1000 < 2 ^ 31
    ∧ ∃ q : Payload,
        decode (some (.jwe (encode
            { token := [("sub", JValue.str "u1")], secret := "secret1", maxAge := some 60 }
            1700000000000 "jti1"))) "secret1" 1700000000000
          = .ok (some q)
        ∧ (∀ k v, getClaim [(("sub" : String), JValue.str "u1")] k = some v →
            getClaim q k = some v)
        ∧ getClaim q "iat" = some (.num (joseEpoch 1700000000000))
        ∧ getClaim q "exp" = some (.num (joseEpoch 1700000000000 + 60))
        ∧ getClaim q "jti" = some (.str "jti1") :=
  ⟨by decide, by decide, by norm_num,
    jwt_encode_decode_roundtrip [("sub", JValue.str "u1")] "secret1" 60 1700000000000 "jti1"
      (by decide) (by decide) (by norm_num) (by decide) (by decide) (by decide) (by decide)⟩

/-- C3 (amended): for every request passed to `getToken` with a secret
provided, the token is read from the session cookie (named
"__Secure-next-auth.session-token" when `secureCookie`,
"next-auth.session-token" otherwise); only when no non-empty cookie
token is present is it read from an "Authorization: Bearer" header after
URL-decoding — where a header with no token part URL-decodes, by the JS
coercion of `undefined`, to the literal string "undefined", and a
malformed percent-encoding raises URIError; if neither yields a
non-empty token the result is null; if `raw` is true the raw token
string is returned, otherwise the decoded payload. -/
theorem getToken_reads_cookie_then_bearer (r : ReqModel) (secureCookie rawFlag : Bool)
    (cookieName : Option String) (secret : String)
    (decodeFn : String → String → Except JoseError (Option Payload))
    (hsec : secret.isEmpty = false) :
    sessionCookieName true = "__Secure-next-auth.session-token"
    ∧ sessionCookieName false = "next-auth.session-token"
    ∧ getToken
        { req := some r
          secureCookie := secureCookie
          cookieName := cookieName
          raw := rawFlag
          secret := some secret } decodeFn
        = getTokenSpec r secureCookie rawFlag cookieName secret decodeFn :=
  ⟨rfl, rfl, getToken_eq_getTokenSpec r secureCookie rawFlag cookieName secret decodeFn hsec⟩

/-- C3 counterexample: with no session cookie and the header exactly
"Bearer" (no token part after it), the claim as stated makes the result
null, but `getToken` returns the raw token "undefined": `split(" ")[1]`
is `undefined`, which `decodeURIComponent` coerces to the string
"undefined". -/
theorem getToken_bearer_without_token_part :
    getToken
      { req := some { cookies := [], authorization := some "Bearer" }
        raw := true
        secret := some "s" } (fun _ _ => .ok none)
      = .ok (some (.raw "undefined"))
    ∧ some (TokenResult.raw "undefined") ≠ (none : Option TokenResult) :=
  ⟨rfl, fun h => Option.noConfusion h⟩

/-- Witness for C3 at a concrete request carrying a session cookie. -/
theorem getToken_reads_cookie_then_bearer_witness :
    ("s1".isEmpty = false)
    ∧ getToken
        { req := some { cookies := [("next-auth.session-token", "tokA")], authorization := none }
          secureCookie := false
          cookieName := none
          raw := true
          secret := some "s1" } (fun _ _ => .ok none)
        = getTokenSpec
            { cookies := [("next-auth.session-token", "tokA")], authorization := none }
            false true none "s1" (fun _ _ => .ok none) :=
  ⟨by decide,
    (getToken_reads_cookie_then_bearer
      { cookies := [("next-auth.session-token", "tokA")], authorization := none }
      false true none "s1" (fun _ _ => .ok none) (by decide)).2.2⟩

/-- C8 (amended): `decode` returns null rather than failing when its
token parameter is absent or empty; `getToken` returns null whenever
decoding the found token raises an error (wrong secret, malformed or
expired token); and `getToken` itself fails only when `req` is missing,
when no (non-empty) secret is available (raising MissingSecret), or —
beyond the original claim — with a URIError when the Bearer header's
token part is malformed percent-encoding. -/
theorem decode_and_getToken_error_handling :
    (∀ s ms, decode none s ms = .ok none ∧ decode (some .empty) s ms = .ok none)
    ∧ (∀ (params : GetTokenParams) decodeFn t secret e,
        params.secret = some secret →
        getToken { params with raw := true } decodeFn = .ok (some (.raw t)) →
        decodeFn t secret = .error e →
        getToken { params with raw := false } decodeFn = .ok none)
    ∧ (∀ (params : GetTokenParams) decodeFn e, getToken params decodeFn = .error e →
        (e = .missingReq ∧ params.req = none)
        ∨ (e = .missingSecret ∧ jsFalsy params.secret = true)
        ∨ e = .uriError)
    ∧ (∀ (params : GetTokenParams) decodeFn, params.req = none →
        getToken params decodeFn = .error .missingReq)
    ∧ (∀ (params : GetTokenParams) decodeFn r, params.req = some r →
        jsFalsy params.secret = true →
        getToken params decodeFn = .error .missingSecret) := by
  refine ⟨fun s ms => ⟨rfl, rfl⟩, ?_, ?_, ?_, ?_⟩
  · intro params decodeFn t secret e hps hraw hdf
    obtain ⟨req?, sc, cn, rawOld, sec?⟩ := params
    cases hps
    cases req? with
    | none => simp [getToken] at hraw
    | some r =>
      by_cases hse : secret.isEmpty
      · simp [getToken, hse] at hraw
      · have hse2 : secret.isEmpty = false := by simpa using hse
        rw [getToken_eq_getTokenSpec r sc true cn secret decodeFn hse2] at hraw
        rw [getToken_eq_getTokenSpec r sc false cn secret decodeFn hse2]
        rw [getTokenSpec_raw_to_decodeCatch r sc cn secret decodeFn t hraw]
        simp [decodeCatch, hdf]
  · intro params decodeFn e h
    obtain ⟨req?, sc, cn, rawF, sec?⟩ := params
    cases req? with
    | none =>
      simp only [getToken] at h
      exact Or.inl ⟨(Except.error.inj h).symm, rfl⟩
    | some r =>
      cases sec? with
      | none =>
        simp only [getToken] at h
        exact Or.inr (Or.inl ⟨(Except.error.inj h).symm, rfl⟩)
      | some s1 =>
        by_cases hse : s1.isEmpty
        · simp only [getToken, hse, if_true] at h
          exact Or.inr (Or.inl ⟨(Except.error.inj h).symm, by simp [jsFalsy, hse]⟩)
        · have hse2 : s1.isEmpty = false := by simpa using hse
          rw [getToken_eq_getTokenSpec r sc rawF cn s1 decodeFn hse2] at h
          exact Or.inr (Or.inr (getTokenSpec_error_is_uriError r sc rawF cn s1 decodeFn e h))
  · intro params decodeFn h
    obtain ⟨req?, sc, cn, rawF, sec?⟩ := params
    cases h
    rfl
  · intro params decodeFn r h hfalsy
    obtain ⟨req?, sc, cn, rawF, sec?⟩ := params
    cases h
    cases sec? with
    | none => rfl
    | some s1 =>
      simp only [jsFalsy] at hfalsy
      simp [getToken, hfalsy]

/-- C8 counterexample: with a request present and a secret provided,
`getToken` can still fail: a Bearer token part that is malformed
percent-encoding makes `decodeURIComponent` raise a URIError, which
`getToken` does not catch. -/
theorem getToken_uriError_with_req_and_secret :
    getToken
      { req := some { cookies := [], authorization := some "Bearer %zz" }
        raw := true
        secret := some "s" } (fun _ _ => .ok none)
      = .error .uriError
    ∧ GetTokenError.uriError ≠ .missingReq
    ∧ GetTokenError.uriError ≠ .missingSecret :=
  ⟨rfl, by decide, by decide⟩

/-- Witness for C8: the missing-`req` failure at a concrete input. -/
theorem decode_and_getToken_error_handling_witness :
    getToken { req := none, secret := some "s" } (fun _ _ => .ok none)
      = .error .missingReq :=
  decode_and_getToken_error_handling.2.2.2.1
    { req := none, secret := some "s" } (fun _ _ => .ok none) rfl

/-- Witness for C9 at a concrete clock reading. -/
theorem encode_sets_exp_and_iat_witness :
    1700000000000 / 1000 < 2 ^ 31
    ∧ getClaim (encode { token := [], secret := "s" } 1700000000000 "j").payload "exp"
        = some (.num ((1700000000000 / 1000 : Nat) + DEFAULT_MAX_AGE)) :=
  ⟨by norm_num, (encode_sets_exp_and_iat [] "s" 1700000000000 "j" (by norm_num)).1⟩

theorem findOneVT_removeFirstVT (db : List MikroOrm.VerificationTokenRec)
    (identifier token : String)
    (h : db.countP (MikroOrm.matchesVT identifier token) ≤ 1) :
    MikroOrm.findOneVT (MikroOrm.removeFirstVT db identifier token) identifier token
      = none := by
  induction db with
  | nil => rfl
  | cons v rest ih =>
    by_cases hv : MikroOrm.matchesVT identifier token v
    · have hcount : rest.countP (MikroOrm.matchesVT identifier token) = 0 := by
        rw [List.countP_cons_of_pos _ _ hv] at h
        omega
      simp only [MikroOrm.removeFirstVT, if_pos hv]
      unfold MikroOrm.findOneVT
      rw [List.find?_eq_none]
      intro x hx
      exact List.countP_eq_zero.mp hcount x hx
    · have h2 : rest.countP (MikroOrm.matchesVT identifier token) ≤ 1 := by
        rw [List.countP_cons_of_neg _ _ hv] at h
        exact h
      simp only [MikroOrm.removeFirstVT, if_neg hv]
      unfold MikroOrm.findOneVT at ih ⊢
      rw [List.find?_cons_of_neg _ hv]
      exact ih h2

/-- C4 (code bug): when `updateSession` is called with a `sessionToken`
matching no stored session, the store is left unchanged, but the error
raised is a TypeError from `wrap(session).assign(data)` — which runs
before the `if (!session) throw new Error("Session not found")` check —
instead of the intended Error "Session not found". -/
theorem updateSession_missing_session_raises_typeError :
    MikroOrm.updateSession [] { sessionToken := "tok1" }
      = (.error (.typeError "Cannot read properties of null - reading assign"), [])
    ∧ MikroOrm.updateSession
        [{ sessionToken := "other", userId := "u", expires := 0 }]
        { sessionToken := "tok1" }
      = (.error (.typeError "Cannot read properties of null - reading assign"),
          [{ sessionToken := "other", userId := "u", expires := 0 }])
    ∧ MikroOrm.AdapterError.typeError "Cannot read properties of null - reading assign"
        ≠ MikroOrm.AdapterError.jsError "Session not found" :=
  ⟨rfl, rfl, by decide⟩

/-- C10: `useVerificationToken` is single-use: when a verification token
matching the identifier and token exists it is returned and removed from
the store, so a second call with the same parameters returns null and
leaves the store unchanged; when no such token exists the call returns
null and the store is unchanged.  (The hypothesis reflects the compound
primary key [identifier, token] of the VerificationToken entity: the
store never holds two matching rows.) -/
theorem useVerificationToken_single_use (db : List MikroOrm.VerificationTokenRec)
    (identifier token : String)
    (huniq : db.countP (MikroOrm.matchesVT identifier token) ≤ 1) :
    (∀ vt, MikroOrm.findOneVT db identifier token = some vt →
        MikroOrm.useVerificationToken db identifier token
          = (some vt, MikroOrm.removeFirstVT db identifier token)
        ∧ MikroOrm.findOneVT (MikroOrm.removeFirstVT db identifier token) identifier token
          = none
        ∧ MikroOrm.useVerificationToken
            (MikroOrm.removeFirstVT db identifier token) identifier token
          = (none, MikroOrm.removeFirstVT db identifier token))
    ∧ (MikroOrm.findOneVT db identifier token = none →
        MikroOrm.useVerificationToken db identifier token = (none, db)) := by
  constructor
  · intro vt hvt
    have hnone := findOneVT_removeFirstVT db identifier token huniq
    refine ⟨?_, hnone, ?_⟩
    · unfold MikroOrm.useVerificationToken
      rw [hvt]
    · unfold MikroOrm.useVerificationToken
      rw [hnone]
  · intro hnone
    unfold MikroOrm.useVerificationToken
    rw [hnone]

/-- Witness for C10 on a one-row store: the token is consumed by the
first call and the second call returns null. -/
theorem useVerificationToken_single_use_witness :
    ([{ identifier := "a@b", token := "t1", expires := 0 }]
        : List MikroOrm.VerificationTokenRec).countP (MikroOrm.matchesVT "a@b" "t1") ≤ 1
    ∧ MikroOrm.useVerificationToken
        [{ identifier := "a@b", token := "t1", expires := 0 }] "a@b" "t1"
        = (some { identifier := "a@b", token := "t1", expires := 0 }, [])
    ∧ MikroOrm.useVerificationToken ([] : List MikroOrm.VerificationTokenRec) "a@b" "t1"
        = (none, []) := by
  refine ⟨by decide, ?_, ?_⟩
  · have h := (useVerificationToken_single_use
        [{ identifier := "a@b", token := "t1", expires := 0 }] "a@b" "t1" (by decide)).1
        { identifier := "a@b", token := "t1", expires := 0 } rfl
    rw [h.1]
    rfl
  · exact (useVerificationToken_single_use [] "a@b" "t1" (by decide)).2 rfl

/-- C5: every sign-in and sign-out request the SvelteKit client helpers
issue is a POST whose urlencoded form body includes a `csrfToken` equal
to the value returned by the preceding (first-in-trace) fetch of the
{basePath}/auth/csrf endpoint. -/
theorem svelteKit_signIn_signOut_post_csrf
    (siArgs : SvelteKitClient.SignInCallArgs)
    (soArgs : SvelteKitClient.SignOutCallArgs) (csrfToken : String) :
    (∃ post : SvelteKitClient.FetchCall,
      SvelteKitClient.signInRequests siArgs csrfToken
        = [{ url := siArgs.base.getD "" ++ "/auth/csrf", method := "get", body := [] },
           post]
      ∧ post.method = "post"
      ∧ SvelteKitClient.jsGet post.body "csrfToken" = some csrfToken)
    ∧ (∃ post : SvelteKitClient.FetchCall,
      SvelteKitClient.signOutRequests soArgs csrfToken
        = [{ url := soArgs.base.getD "" ++ "/auth/csrf", method := "get", body := [] },
           post]
      ∧ post.method = "post"
      ∧ SvelteKitClient.jsGet post.body "csrfToken" = some csrfToken) := by
  constructor
  · refine ⟨_, rfl, rfl, ?_⟩
    show assocGet (assocSet (assocSet (siArgs.options.getD []) "csrfToken" csrfToken)
        "callbackUrl" _) "csrfToken" = some csrfToken
    rw [assocGet_assocSet_of_ne _ _ _ _ (by decide), assocGet_assocSet_self]
  · refine ⟨_, rfl, rfl, ?_⟩
    show assocGet (assocSet (assocSet [] "csrfToken" csrfToken)
        "callbackUrl" _) "csrfToken" = some csrfToken
    rw [assocGet_assocSet_of_ne _ _ _ _ (by decide), assocGet_assocSet_self]

/-- C7: for every providerId, the SvelteKit `signIn` helper posts to
{basePath}/auth/callback/{providerId} when the provider is
"credentials", and to {basePath}/auth/signin/{providerId} for every
other provider, with the given authorizationParams appended as the query
string. -/
theorem svelteKit_signIn_url (args : SvelteKitClient.SignInCallArgs) (csrfToken : String) :
    ∃ post : SvelteKitClient.FetchCall,
      SvelteKitClient.signInRequests args csrfToken
        = [{ url := args.base.getD "" ++ "/auth/csrf", method := "get", body := [] },
           post]
      ∧ post.method = "post"
      ∧ (args.providerId = "credentials" →
          post.url = args.base.getD "" ++ "/auth/callback/" ++ args.providerId ++ "?"
            ++ SvelteKitClient.urlSearchParamsToString args.authorizationParams)
      ∧ (args.providerId ≠ "credentials" →
          post.url = args.base.getD "" ++ "/auth/signin/" ++ args.providerId ++ "?"
            ++ SvelteKitClient.urlSearchParamsToString args.authorizationParams) := by
  refine ⟨_, rfl, rfl, ?_, ?_⟩
  · intro hcred
    show args.base.getD "" ++ "/auth/"
        ++ (if args.providerId = "credentials" then "callback" else "signin")
        ++ "/" ++ args.providerId ++ "?"
        ++ SvelteKitClient.urlSearchParamsToString args.authorizationParams
      = args.base.getD "" ++ "/auth/callback/" ++ args.providerId ++ "?"
        ++ SvelteKitClient.urlSearchParamsToString args.authorizationParams
    rw [if_pos hcred]
    simp only [String.append_assoc]
    rfl
  · intro hcred
    show args.base.getD "" ++ "/auth/"
        ++ (if args.providerId = "credentials" then "callback" else "signin")
        ++ "/" ++ args.providerId ++ "?"
        ++ SvelteKitClient.urlSearchParamsToString args.authorizationParams
      = args.base.getD "" ++ "/auth/signin/" ++ args.providerId ++ "?"
        ++ SvelteKitClient.urlSearchParamsToString args.authorizationParams
    rw [if_neg hcred]
    simp only [String.append_assoc]
    rfl

/-- Witness for C7 at the "credentials" provider and at another one. -/
theorem svelteKit_signIn_url_witness :
    (∃ post : SvelteKitClient.FetchCall,
      SvelteKitClient.signInRequests
          { providerId := "credentials", windowLocationHref := "http://app/" } "c1"
        = [{ url := ("" : String) ++ "/auth/csrf", method := "get", body := [] }, post]
      ∧ post.url = ("" : String) ++ "/auth/callback/" ++ "credentials" ++ "?"
          ++ SvelteKitClient.urlSearchParamsToString [])
    ∧ (∃ post : SvelteKitClient.FetchCall,
      SvelteKitClient.signInRequests
          { providerId := "google", windowLocationHref := "http://app/" } "c1"
        = [{ url := ("" : String) ++ "/auth/csrf", method := "get", body := [] }, post]
      ∧ post.url = ("" : String) ++ "/auth/signin/" ++ "google" ++ "?"
          ++ SvelteKitClient.urlSearchParamsToString []) := by
  constructor
  · obtain ⟨post, h1, _, h3, _⟩ := svelteKit_signIn_url
      { providerId := "credentials", windowLocationHref := "http://app/" } "c1"
    exact ⟨post, h1, h3 rfl⟩
  · obtain ⟨post, h1, _, _, h4⟩ := svelteKit_signIn_url
      { providerId := "google", windowLocationHref := "http://app/" } "c1"
    exact ⟨post, h1, h4 (by decide)⟩

theorem take_jsIndexOfDot_eq_takeWhile (l : List Char) (h : '.' ∈ l) :
    ∃ i, GenerateProviders.jsIndexOfDot l = some i
      ∧ l.take i = l.takeWhile (fun c => c ≠ '.') := by
  induction l with
  | nil => cases h
  | cons c rest ih =>
    by_cases hc : c = '.'
    · refine ⟨0, ?_, ?_⟩
      · simp [GenerateProviders.jsIndexOfDot, hc]
      · simp [List.takeWhile_cons, hc]
    · have hmem : '.' ∈ rest := by
        cases h with
        | head => exact absurd rfl hc
        | tail _ h2 => exact h2
      obtain ⟨i, hfi, hti⟩ := ih hmem
      refine ⟨i + 1, ?_, ?_⟩
      · simp [GenerateProviders.jsIndexOfDot, hc, hfi]
      · simp [List.takeWhile_cons, hc, List.take_succ_cons, hti]

theorem strippedProviderName_eq_takeWhile (f : String) (h : '.' ∈ f.toList) :
    GenerateProviders.strippedProviderName f
      = String.mk (f.toList.takeWhile (fun c => c ≠ '.')) := by
  obtain ⟨i, hfi, hti⟩ := take_jsIndexOfDot_eq_takeWhile f.toList h
  unfold GenerateProviders.strippedProviderName
  simp only [hfi]
  rw [hti]

theorem stripQuotes_quoteName (s : String) (h : '\"' ∉ s.toList) :
    GenerateProviders.stripQuotes (GenerateProviders.quoteName s) = s := by
  unfold GenerateProviders.stripQuotes GenerateProviders.quoteName
  have hdata : (("\"" : String) ++ s ++ "\"").toList = '\"' :: (s.toList ++ ['\"']) := by
    show (("\"" : String) ++ s ++ "\"").data = '\"' :: (s.data ++ ['\"'])
    rw [String.data_append, String.data_append]
    rfl
  rw [hdata]
  have hfilter : (s.toList ++ ['\"']).filter (fun c => c ≠ '\"')
      = s.toList.filter (fun c => c ≠ '\"') := by
    rw [List.filter_append]
    simp
  have hself : s.toList.filter (fun c => c ≠ '\"') = s.toList :=
    List.filter_eq_self.mpr (fun a ha => by
      simp only [decide_eq_true_eq]
      intro heq
      exact h (heq ▸ ha))
  simp only [List.filter_cons]
  simp only [decide_eq_true_eq]
  rw [if_neg (by simp)]
  rw [hfilter, hself]
  rfl

/-- C6: the generated `OAuthProviderType` union consists of exactly the
base names (text before the first dot) of the files in src/providers,
excluding the five non-OAuth names "oauth-types", "oauth", "index",
"email" and "credentials" (stated for file names that contain a dot and
no double-quote character, as the provider file names do). -/
theorem oauthProviderType_members_are_base_names (files : List String)
    (h : ∀ f ∈ files, '.' ∈ f.toList ∧ '\"' ∉ f.toList) :
    GenerateProviders.oauthProviderTypeMembers files
      = GenerateProviders.specOAuthProviderNames files := by
  induction files with
  | nil => rfl
  | cons f rest ih =>
    have hf := h f (List.mem_cons_self f rest)
    have hrest := ih (fun g hg => h g (List.mem_cons_of_mem f hg))
    have hstrip : GenerateProviders.strippedProviderName f
        = String.mk (f.toList.takeWhile (fun c => c ≠ '.')) :=
      strippedProviderName_eq_takeWhile f hf.1
    have hnoquote : '\"' ∉ (GenerateProviders.strippedProviderName f).toList := by
      rw [hstrip]
      intro hmem
      exact hf.2 (List.takeWhile_subset _ hmem)
    have hsq2 : GenerateProviders.stripQuotes (GenerateProviders.quoteName
        (String.mk (f.toList.takeWhile (fun c => c ≠ '.'))))
        = String.mk (f.toList.takeWhile (fun c => c ≠ '.')) := by
      rw [← hstrip]
      exact stripQuotes_quoteName _ hnoquote
    unfold GenerateProviders.oauthProviderTypeMembers GenerateProviders.providers
        GenerateProviders.specOAuthProviderNames at hrest ⊢
    simp only [List.map_cons, List.filter_cons, hstrip, hsq2]
    by_cases hcont : GenerateProviders.nonOAuthFile.contains
        (String.mk (f.toList.takeWhile (fun c => c ≠ '.')))
    · have hb : ¬ ((! GenerateProviders.nonOAuthFile.contains
          (String.mk (f.toList.takeWhile (fun c => c ≠ '.')))) = true) := by
        rw [hcont]
        simp
      simp only [if_neg hb]
      exact hrest
    · have hcont2 : GenerateProviders.nonOAuthFile.contains
          (String.mk (f.toList.takeWhile (fun c => c ≠ '.'))) = false := by
        simpa using hcont
      have hb : (! GenerateProviders.nonOAuthFile.contains
          (String.mk (f.toList.takeWhile (fun c => c ≠ '.')))) = true := by
        rw [hcont2]
        rfl
      simp only [if_pos hb, List.map_cons, hsq2]
      rw [hrest]

/-- Witness for C6 on a concrete provider directory listing. -/
theorem oauthProviderType_members_witness :
    (∀ f ∈ (["google.ts", "github.ts", "credentials.ts", "email.ts", "index.ts",
        "oauth.ts", "oauth-types.ts"] : List String), '.' ∈ f.toList ∧ '\"' ∉ f.toList)
    ∧ GenerateProviders.oauthProviderTypeMembers
        ["google.ts", "github.ts", "credentials.ts", "email.ts", "index.ts",
          "oauth.ts", "oauth-types.ts"]
      = GenerateProviders.specOAuthProviderNames
        ["google.ts", "github.ts", "credentials.ts", "email.ts", "index.ts",
          "oauth.ts", "oauth-types.ts"]
    ∧ GenerateProviders.specOAuthProviderNames
        ["google.ts", "github.ts", "credentials.ts", "email.ts", "index.ts",
          "oauth.ts", "oauth-types.ts"]
      = ["google", "github"] :=
  ⟨by decide,
    oauthProviderType_members_are_base_names
      ["google.ts", "github.ts", "credentials.ts", "email.ts", "index.ts",
        "oauth.ts", "oauth-types.ts"] (by decide),
    by decide⟩

end NextAuth
